import Mathlib

/-!
Verification of the document-ingestion / RAG / chat-orchestration core of the
`api_asistenteVirtualZeep` backend, as a shallow embedding in Lean 4.

Sources embedded:
- `app/services/document_processor.py` (chunker, ingestion pipeline)
- `app/services/rag.py` (`RAGService.search_similar_chunks`,
  `RAGService.process_document_chunks`)
- `app/services/llm.py` (`LLMService.stream_chat`)
- `app/services/chat_orchestrator.py` (`ChatOrchestrator`)

Python text is modelled as `List Char`; machine floats in the half-window
comparison `cut_point > chunk_size * 0.5` are modelled exactly by the integer
inequality `2 * cut_point > chunk_size`; the external embedding provider is an
explicit function parameter returning `Except`.
-/

namespace Zeep

/-- Python whitespace characters relevant to `str.strip()`. -/
def isPySpace (c : Char) : Bool :=
  c = ' ' || c = '\t' || c = '\n' || c = '\r' || c = '\x0b' || c = '\x0c'

/-- Python `s.strip()` on a list of characters: drop whitespace at both ends. -/
def pyStrip (s : List Char) : List Char :=
  ((s.dropWhile isPySpace).reverse.dropWhile isPySpace).reverse

/-- Python `s[a:b]` for `0 ≤ a ≤ b` (slices clamp at the end of the string). -/
def pySlice (s : List Char) (a b : ℕ) : List Char :=
  (s.drop a).take (b - a)

/-- Python `s.rfind(c)`: index of the last occurrence of `c`, `-1` if absent. -/
def pyRfind (s : List Char) (c : Char) : ℤ :=
  match s.reverse.findIdx? (· = c) with
  | none => -1
  | some j => (s.length : ℤ) - 1 - (j : ℤ)

/-- One chunk record as produced by `DocumentProcessor._create_chunks`:
the stripped window text plus the `start_char`/`end_char`/`length` metadata. -/
structure ChunkRec where
  chunk_index : ℕ
  content : List Char
  start_char : ℕ
  end_char : ℕ
  byte_len : ℕ
deriving DecidableEq, Repr

/-- The window-adjustment step of `_create_chunks`: take `text[start:start+L]`;
if the window does not reach the end of the text, look for the last period or
newline and, when that cut point lies past half the window, truncate the window
there and move `end` back accordingly (otherwise `end = start + L`). -/
def chunkWindow (L : ℕ) (text : List Char) (start : ℕ) : List Char × ℕ :=
  let ct0 := pySlice text start (start + L)
  if start + L < text.length then
    let cp : ℤ := max (pyRfind ct0 '.') (pyRfind ct0 '\n')
    if 2 * cp > (L : ℤ) then
      (ct0.take (cp.toNat + 1), start + (ct0.take (cp.toNat + 1)).length)
    else
      (ct0, start + L)
  else
    (ct0, start + L)

/-- The `while start < len(text)` loop of `DocumentProcessor._create_chunks`,
with explicit fuel (`none` = fuel exhausted, i.e. the loop did not finish).
A window that is empty after stripping breaks the loop; otherwise the chunk is
emitted and the next window starts at `end - O`. -/
def create_chunks_loop (L O : ℕ) (text : List Char) :
    ℕ → ℕ → ℕ → Option (List ChunkRec)
  | 0, _, _ => none
  | fuel + 1, start, idx =>
    if start < text.length then
      let ct0 := pySlice text start (start + L)
      if pyStrip ct0 = [] then
        some []
      else
        let w := chunkWindow L text start
        let ck : ChunkRec := ⟨idx, pyStrip w.1, start, w.2, w.1.length⟩
        match create_chunks_loop L O text fuel (w.2 - O) (idx + 1) with
        | none => none
        | some rest => some (ck :: rest)
    else
      some []

/-- `DocumentProcessor._create_chunks` run from the start of the text, with
fuel `text.length + 1` (shown sufficient for the deployed parameters). -/
def create_chunks (L O : ℕ) (text : List Char) : Option (List ChunkRec) :=
  create_chunks_loop L O text (text.length + 1) 0 0

/-- The chunk-size parameter fixed in `DocumentProcessor.__init__`. -/
def chunkSize : ℕ := 1000

/-- The chunk-overlap parameter fixed in `DocumentProcessor.__init__`. -/
def chunkOverlap : ℕ := 200


/-! ## Persisted entities and the RAG store -/

/-- Document lifecycle status (`app/models/document.py`, `DocumentStatus`). -/
inductive DocStatus
  | uploaded
  | processing
  | processed
  | error
deriving DecidableEq, Repr

/-- A `documents` row (`app/models/document.py`, `Document`); only the columns
the ingestion and search paths read. -/
structure StoredDoc where
  id : ℕ
  user_id : ℕ
  filename : String
  status : DocStatus
deriving DecidableEq, Repr

/-- A `document_chunks` row (`app/models/document.py`, `DocumentChunk`). -/
structure StoredChunk where
  id : ℕ
  document_id : ℕ
  chunk_index : ℕ
  content : List Char
deriving DecidableEq, Repr

/-- An `embeddings` row (`app/models/embedding.py`, `Embedding`); the vector
components are modelled as integers (their values are never computed on). -/
structure StoredEmbedding where
  chunk_id : ℕ
  vec : List ℤ
  model : String
deriving DecidableEq, Repr

/-- The transactional view of the store used by ingestion and search:
documents, chunks, embeddings, plus the primary-key allocator for chunks. -/
structure RagDB where
  nextChunkId : ℕ
  docs : List StoredDoc
  chunks : List StoredChunk
  embeddings : List StoredEmbedding
deriving DecidableEq, Repr

/-- The chunks of one document currently in the store. -/
def chunksOf (db : RagDB) (docId : ℕ) : List StoredChunk :=
  db.chunks.filter (fun c => c.document_id == docId)

/-- The configured embedding model identifier (`app/config.py`). -/
def embeddingModelId : String := "models/text-embedding-004"

/-- `DocumentProcessor._delete_old_chunks_and_embeddings`: delete the
embeddings whose chunk belongs to the document, then the document's chunks. -/
def delete_old_chunks_and_embeddings (db : RagDB) (docId : ℕ) : RagDB :=
  let docChunkIds := (chunksOf db docId).map StoredChunk.id
  { db with
    embeddings := db.embeddings.filter (fun e => ¬ e.chunk_id ∈ docChunkIds)
    chunks := db.chunks.filter (fun c => ¬ c.document_id == docId) }

/-- Chunk rows inserted by the `db.add` calls of `_create_chunks`, with
primary keys assigned in insertion order starting at `base`. -/
def mkStoredChunks (docId base : ℕ) : List ChunkRec → List StoredChunk
  | [] => []
  | r :: rs => ⟨base, docId, r.chunk_index, r.content⟩ :: mkStoredChunks docId (base + 1) rs

/-- Persisting the chunk records of a document: append the new rows and
advance the primary-key allocator. -/
def insertChunks (db : RagDB) (docId : ℕ) (recs : List ChunkRec) :
    RagDB × List StoredChunk :=
  let stored := mkStoredChunks docId db.nextChunkId recs
  ({ db with
      nextChunkId := db.nextChunkId + recs.length
      chunks := db.chunks ++ stored },
   stored)

/-- `RAGService.process_document_chunks`: for each chunk with no existing
embedding row, call the provider (fan-out with per-item error isolation);
add an embedding row per success and return the number created. -/
def process_document_chunks (db : RagDB)
    (provider : List Char → Except String (List ℤ))
    (cs : List StoredChunk) : RagDB × ℕ :=
  let pending := cs.filter
    (fun c => (db.embeddings.find? (fun e => e.chunk_id == c.id)).isNone)
  let created := pending.filterMap (fun c =>
    match provider c.content with
    | .ok v => some (⟨c.id, v, embeddingModelId⟩ : StoredEmbedding)
    | .error _ => none)
  ({ db with embeddings := db.embeddings ++ created }, created.length)

/-- Mark the document's row with a new status. -/
def setDocStatus (db : RagDB) (docId : ℕ) (st : DocStatus) : RagDB :=
  { db with docs := db.docs.map (fun d =>
      if d.id == docId then { d with status := st } else d) }

/-- `DocumentProcessor.process_document` over the already-extracted text:
set status `processing`, delete the document's previous chunks and
embeddings, fail (rollback, status `error`, re-raise) on empty text or an
unfinished chunking loop, otherwise persist chunks, create embeddings with
per-chunk failure isolation, and set status `processed`.  The first
component of the result is the final store, the second the document's final
status, the third the returned `(chunks_created, embeddings_created)` or the
propagated exception. -/
def process_document (db : RagDB) (doc : StoredDoc) (text : List Char)
    (provider : List Char → Except String (List ℤ)) :
    RagDB × DocStatus × Except String (ℕ × ℕ) :=
  let db1 := delete_old_chunks_and_embeddings db doc.id
  if text = [] then
    (setDocStatus db doc.id .error, .error, .error "No text extracted")
  else
    match create_chunks chunkSize chunkOverlap text with
    | none => (setDocStatus db doc.id .error, .error, .error "chunking did not finish")
    | some recs =>
      let ins := insertChunks db1 doc.id recs
      let emb := process_document_chunks ins.1 provider ins.2
      (setDocStatus emb.1 doc.id .processed, .processed, .ok (recs.length, emb.2))

/-- Whether an embedding request for the given content succeeds. -/
def embedSucceeds (provider : List Char → Except String (List ℤ))
    (content : List Char) : Bool :=
  match provider content with
  | .ok _ => true
  | .error _ => false

/-- Number of chunk records whose embedding request fails under `provider`. -/
def failedEmbedCount (provider : List Char → Except String (List ℤ))
    (recs : List ChunkRec) : ℕ :=
  (recs.filter (fun r => !(embedSucceeds provider r.content))).length

/-! ## Vector similarity search -/

/-- One row of the search query's join: a chunk together with its embedding
row (inner join on `chunk_id`) and its parent document (join on
`document_id`). -/
structure SearchRow where
  chunk : StoredChunk
  doc : StoredDoc
  emb : StoredEmbedding
deriving DecidableEq, Repr

/-- The `DocumentChunk ⋈ Embedding ⋈ Document` join of
`RAGService.search_similar_chunks` (both foreign keys are unique, so the
first match is the only one). -/
def joinRows (db : RagDB) : List SearchRow :=
  db.chunks.filterMap (fun c =>
    match db.embeddings.find? (fun e => e.chunk_id == c.id),
          db.docs.find? (fun d => d.id == c.document_id) with
    | some e, some d => some ⟨c, d, e⟩
    | _, _ => none)

/-- Insert into a sorted list, keeping the comparison's order. -/
def insertSorted (le : α → α → Bool) (a : α) : List α → List α
  | [] => [a]
  | b :: bs => if le a b then a :: b :: bs else b :: insertSorted le a bs

/-- Deterministic sort modelling the query's `ORDER BY distance`. -/
def sortByLe (le : α → α → Bool) : List α → List α
  | [] => []
  | a :: as => insertSorted le a (sortByLe le as)

/-- Python truthiness of the `Optional[int]` owner filter: `if user_id:` is
taken only for a non-`None`, non-zero id. -/
def userIdTruthy : Option ℕ → Bool
  | none => false
  | some u => u != 0

/-- `RAGService.search_similar_chunks`: join chunks with their embeddings and
documents, apply the owner filter when the id is truthy, order by the
distance of each row's embedding to the query, and keep the first `top_k`
rows.  The distance function stands for `cosine_distance(embedding, query)`
computed by the database. -/
def search_similar_chunks (db : RagDB) (dist : List ℤ → ℤ)
    (user_id : Option ℕ) (top_k : ℕ) : List StoredChunk :=
  let rows := joinRows db
  let eligible :=
    if userIdTruthy user_id then
      rows.filter (fun r => r.doc.user_id == user_id.getD 0)
    else
      rows
  let ranked := sortByLe (fun a b => dist a.emb.vec ≤ dist b.emb.vec) eligible
  (ranked.take top_k).map SearchRow.chunk

/-- The rows eligible for a search scoped to owner `uid`: chunks with an
embedding whose parent document is owned by `uid`. -/
def eligibleRows (db : RagDB) (uid : ℕ) : List SearchRow :=
  (joinRows db).filter (fun r => r.doc.user_id == uid)


/-! ## Generation streaming (`LLMService.stream_chat`) -/

/-- The fixed grounding-refusal reply of `LLMService.stream_chat`. -/
def refusalMessage : String :=
  "Lo siento, no encontré información sobre eso en los documentos disponibles."

/-- Python's `not rag_context or not rag_context.strip()`: the context is
missing when it is `None`, empty, or whitespace-only. -/
def ragContextMissing : Option String → Bool
  | none => true
  | some s => s.toList.all isPySpace

/-- `LLMService.stream_chat` as the list of text fragments it yields, paired
with whether the generation provider was invoked.  `providerTokens` are the
fragments the provider produces before finishing or failing;
`providerFailure` is the exception caught by the worker thread, which is
forwarded into the queue as a final `"Error: …"` fragment. -/
def stream_chat (clientOk : Bool) (use_rag : Bool) (rag_context : Option String)
    (providerTokens : List String) (providerFailure : Option String) :
    List String × Bool :=
  if use_rag && ragContextMissing rag_context then
    ([refusalMessage], false)
  else if !clientOk then
    (["Error: Gemini API key not configured"], false)
  else
    match providerFailure with
    | none => (providerTokens, true)
    | some e => (providerTokens ++ ["Error: " ++ e], true)

/-! ## Chat orchestration (`ChatOrchestrator`) -/

/-- A `conversations` row (per spec §3 the model file itself is external to
this core; the columns are the ones `chat_orchestrator.py` reads/writes). -/
structure Conversation where
  id : ℕ
  user_id : ℕ
  title : String
deriving DecidableEq, Repr

/-- A `messages` row, as written by `ChatOrchestrator`. -/
structure ChatMessage where
  id : ℕ
  conversation_id : ℕ
  role : String
  content : String
deriving DecidableEq, Repr

/-- Committed database state seen by other transactions. -/
structure ChatDB where
  conversations : List Conversation
  messages : List ChatMessage
deriving DecidableEq, Repr

/-- A SQLAlchemy session: committed state plus the current transaction's
pending (added/flushed but uncommitted) rows, and primary-key allocators. -/
structure ChatSession where
  committed : ChatDB
  pendingConversations : List Conversation
  pendingMessages : List ChatMessage
  nextConversationId : ℕ
  nextMessageId : ℕ
deriving DecidableEq, Repr

/-- `db.commit()`: pending rows become committed. -/
def ChatSession.commit (s : ChatSession) : ChatSession :=
  { s with
    committed :=
      ⟨s.committed.conversations ++ s.pendingConversations,
       s.committed.messages ++ s.pendingMessages⟩
    pendingConversations := []
    pendingMessages := [] }

/-- `db.rollback()`: pending rows are discarded. -/
def ChatSession.rollback (s : ChatSession) : ChatSession :=
  { s with pendingConversations := [], pendingMessages := [] }

/-- Rows of the session's transaction view (committed plus flushed). -/
def ChatSession.viewConversations (s : ChatSession) : List Conversation :=
  s.committed.conversations ++ s.pendingConversations

/-- The lookup step of `_get_or_create_conversation`: a supplied, truthy
(`if conversation_id:`) conversation id that belongs to the caller. -/
def lookupConversation (s : ChatSession) (userId : ℕ)
    (conversationId : Option ℕ) : Option Conversation :=
  match conversationId with
  | some cid =>
    if cid ≠ 0 then
      s.viewConversations.find? (fun c => c.id == cid && c.user_id == userId)
    else
      none
  | none => none

/-- `ChatOrchestrator._get_or_create_conversation` for an authenticated user:
reuse a supplied conversation id when it is truthy and owned by the caller;
otherwise create a conversation with the placeholder title and commit it
immediately. -/
def get_or_create_conversation (s : ChatSession) (userId : ℕ)
    (conversationId : Option ℕ) : ChatSession × Conversation :=
  match lookupConversation s userId conversationId with
  | some conv => (s, conv)
  | none =>
    let conv : Conversation := ⟨s.nextConversationId, userId, "Nueva conversación"⟩
    let s1 := { s with
      pendingConversations := s.pendingConversations ++ [conv]
      nextConversationId := s.nextConversationId + 1 }
    (s1.commit, conv)

/-- Events of the produced stream. -/
inductive ChatEvent
  | token (data : String)
  | done (conversation_id message_id : Option ℕ)
  | error (msg : String)
deriving DecidableEq, Repr

/-- Whether an event is terminal (`done` or `error`). -/
def ChatEvent.isTerminal : ChatEvent → Bool
  | .token _ => false
  | _ => true

/-- Whether an event is an `error` event. -/
def ChatEvent.isError : ChatEvent → Bool
  | .error _ => true
  | _ => false

/-- Injected failure points for the turn's fallible database operations:
the flush of the user message, the assistant-persistence step after
streaming completes, and the final commit. -/
inductive FailPoint
  | atUserFlush
  | afterStreaming
  | atCommit
deriving DecidableEq, Repr

/-- `ChatOrchestrator.stream_chat_response`, modelled as the final session
plus the emitted event list.  `ragContext` is the result of
`retrieve_context` (which never raises — it catches internally);
`providerTokens` / `providerFailure` describe the generation provider as in
`stream_chat`; `fail` injects an exception at one of the turn's database
operations, which the orchestrator's `except` handler translates into a
`rollback` and a single `error` event. -/
def stream_chat_response (s : ChatSession) (user : Option ℕ)
    (userMessage : String) (conversationId : Option ℕ) (use_rag : Bool)
    (ragContext : Option String) (clientOk : Bool)
    (providerTokens : List String) (providerFailure : Option String)
    (fail : Option FailPoint) : ChatSession × List ChatEvent :=
  match user with
  | none =>
    let ctx := if use_rag then ragContext else none
    let out := stream_chat clientOk use_rag ctx providerTokens providerFailure
    (s, out.1.map ChatEvent.token ++ [ChatEvent.done none none])
  | some uid =>
    let g := get_or_create_conversation s uid conversationId
    let s1 := g.1
    let conv := g.2
    let userMsg : ChatMessage := ⟨s1.nextMessageId, conv.id, "user", userMessage⟩
    let s2 := { s1 with
      pendingMessages := s1.pendingMessages ++ [userMsg]
      nextMessageId := s1.nextMessageId + 1 }
    if fail = some .atUserFlush then
      (s2.rollback, [ChatEvent.error "user message flush failed"])
    else
      let ctx := if use_rag then ragContext else none
      let out := stream_chat clientOk use_rag ctx providerTokens providerFailure
      let tokenEvents := out.1.map ChatEvent.token
      if fail = some .afterStreaming then
        (s2.rollback, tokenEvents ++ [ChatEvent.error "assistant persistence failed"])
      else
        let assistantMsg : ChatMessage :=
          ⟨s2.nextMessageId, conv.id, "assistant", String.join out.1⟩
        let s3 := { s2 with
          pendingMessages := s2.pendingMessages ++ [assistantMsg]
          nextMessageId := s2.nextMessageId + 1 }
        if fail = some .atCommit then
          (s3.rollback, tokenEvents ++ [ChatEvent.error "commit failed"])
        else
          (s3.commit,
           tokenEvents ++ [ChatEvent.done (some conv.id) (some assistantMsg.id)])


/-! ## Supporting lemmas -/

theorem pyRfind_lt_length (s : List Char) (c : Char) :
    pyRfind s c < (s.length : ℤ) := by
  unfold pyRfind
  cases h : s.reverse.findIdx? (· = c) with
  | none => simp only []; omega
  | some j => simp only []; omega

theorem pySlice_length (s : List Char) (a b : ℕ) :
    (pySlice s a b).length = min (b - a) (s.length - a) := by
  simp [pySlice]

/-- Progress: in each loop iteration with `2 * O < L`, the new start
`end - O` strictly exceeds the old start. -/
theorem chunkWindow_progress (L O : ℕ) (text : List Char) (start : ℕ)
    (hL : 0 < L) (hO : 2 * O < L) :
    start + O < (chunkWindow L text start).2 := by
  unfold chunkWindow
  by_cases hend : start + L < text.length
  · simp only [hend, if_true]
    set ct0 := pySlice text start (start + L) with hct0
    have hlen : ct0.length = L := by
      rw [hct0, pySlice_length]
      omega
    by_cases hcut : 2 * max (pyRfind ct0 '.') (pyRfind ct0 '\n') > (L : ℤ)
    · simp only [hcut, if_true]
      set cp : ℤ := max (pyRfind ct0 '.') (pyRfind ct0 '\n') with hcp
      have hcplt : cp < (L : ℤ) := by
        have h1 := pyRfind_lt_length ct0 '.'
        have h2 := pyRfind_lt_length ct0 '\n'
        rw [hlen] at h1 h2
        exact max_lt h1 h2
      have hcppos : (O : ℤ) < cp := by omega
      have htn : O < cp.toNat := by omega
      have htake : (ct0.take (cp.toNat + 1)).length = cp.toNat + 1 := by
        rw [List.length_take, hlen]
        omega
      rw [htake]
      omega
    · simp only [hcut, if_false]
      omega
  · simp only [hend, if_false]
    omega

/-- Termination of the chunking loop for any parameters with `2 * O < L`:
fuel exceeding the remaining text length suffices. -/
theorem create_chunks_loop_isSome (L O : ℕ) (hL : 0 < L) (hO : 2 * O < L)
    (text : List Char) :
    ∀ fuel start idx, text.length - start < fuel →
      (create_chunks_loop L O text fuel start idx).isSome := by
  intro fuel
  induction fuel with
  | zero => intro start idx h; omega
  | succ n ih =>
    intro start idx h
    rw [create_chunks_loop]
    by_cases hs : start < text.length
    · simp only [hs, if_true]
      by_cases hemp : pyStrip (pySlice text start (start + L)) = []
      · simp [hemp]
      · simp only [hemp, if_false]
        have hprog := chunkWindow_progress L O text start hL hO
        have hrec : (create_chunks_loop L O text n
            ((chunkWindow L text start).2 - O) (idx + 1)).isSome := by
          apply ih
          omega
        cases hmatch : create_chunks_loop L O text n
            ((chunkWindow L text start).2 - O) (idx + 1) with
        | none => rw [hmatch] at hrec; simp at hrec
        | some rest => simp [hmatch]
    · simp [hs]

/-- Chunk indices emitted by the loop starting at `idx` are
`idx, idx+1, …` in order. -/
theorem create_chunks_loop_indices (L O : ℕ) (text : List Char) :
    ∀ fuel start idx l, create_chunks_loop L O text fuel start idx = some l →
      l.map ChunkRec.chunk_index = List.range' idx l.length := by
  intro fuel
  induction fuel with
  | zero => intro start idx l h; simp [create_chunks_loop] at h
  | succ n ih =>
    intro start idx l h
    rw [create_chunks_loop] at h
    by_cases hs : start < text.length
    · simp only [hs, if_true] at h
      by_cases hemp : pyStrip (pySlice text start (start + L)) = []
      · simp only [hemp, if_true] at h
        cases h
        simp
      · simp only [hemp, if_false] at h
        cases hmatch : create_chunks_loop L O text n
            ((chunkWindow L text start).2 - O) (idx + 1) with
        | none => rw [hmatch] at h; cases h
        | some rest =>
          rw [hmatch] at h
          cases h
          have := ih ((chunkWindow L text start).2 - O) (idx + 1) rest hmatch
          simp [this, List.range'_succ]
    · simp only [hs, if_false] at h
      cases h
      simp

theorem length_insertSorted (le : α → α → Bool) (a : α) (l : List α) :
    (insertSorted le a l).length = l.length + 1 := by
  induction l with
  | nil => rfl
  | cons b bs ih =>
    rw [insertSorted]
    by_cases h : le a b
    · simp [h]
    · simp [h, ih]

theorem length_sortByLe (le : α → α → Bool) (l : List α) :
    (sortByLe le l).length = l.length := by
  induction l with
  | nil => rfl
  | cons a as ih => rw [sortByLe, length_insertSorted, ih, List.length_cons]

theorem mem_insertSorted (le : α → α → Bool) (a x : α) (l : List α) :
    x ∈ insertSorted le a l ↔ x = a ∨ x ∈ l := by
  induction l with
  | nil => simp [insertSorted]
  | cons b bs ih =>
    rw [insertSorted]
    by_cases h : le a b
    · simp [h]
    · rw [if_neg h]
      simp only [List.mem_cons, ih]
      tauto

theorem mem_sortByLe (le : α → α → Bool) (x : α) (l : List α) :
    x ∈ sortByLe le l ↔ x ∈ l := by
  induction l with
  | nil => simp [sortByLe]
  | cons a as ih =>
    rw [sortByLe, mem_insertSorted]
    simp [ih]

theorem mkStoredChunks_length (docId : ℕ) (recs : List ChunkRec) :
    ∀ base, (mkStoredChunks docId base recs).length = recs.length := by
  induction recs with
  | nil => intro base; rfl
  | cons r rs ih => intro base; simp [mkStoredChunks, ih]

theorem mkStoredChunks_map_index (docId : ℕ) (recs : List ChunkRec) :
    ∀ base, (mkStoredChunks docId base recs).map StoredChunk.chunk_index =
      recs.map ChunkRec.chunk_index := by
  induction recs with
  | nil => intro base; rfl
  | cons r rs ih => intro base; simp [mkStoredChunks, ih]

theorem mkStoredChunks_map_content (docId : ℕ) (recs : List ChunkRec) :
    ∀ base, (mkStoredChunks docId base recs).map StoredChunk.content =
      recs.map ChunkRec.content := by
  induction recs with
  | nil => intro base; rfl
  | cons r rs ih => intro base; simp [mkStoredChunks, ih]

theorem mkStoredChunks_document_id (docId : ℕ) (recs : List ChunkRec) :
    ∀ base, ∀ c ∈ mkStoredChunks docId base recs, c.document_id = docId := by
  induction recs with
  | nil => intro base c hc; simp [mkStoredChunks] at hc
  | cons r rs ih =>
    intro base c hc
    rw [mkStoredChunks] at hc
    rcases List.mem_cons.mp hc with h | h
    · subst h; rfl
    · exact ih (base + 1) c h

theorem mkStoredChunks_id_bounds (docId : ℕ) (recs : List ChunkRec) :
    ∀ base, ∀ c ∈ mkStoredChunks docId base recs,
      base ≤ c.id ∧ c.id < base + recs.length := by
  induction recs with
  | nil => intro base c hc; simp [mkStoredChunks] at hc
  | cons r rs ih =>
    intro base c hc
    rw [mkStoredChunks] at hc
    rcases List.mem_cons.mp hc with h | h
    · subst h; constructor <;> simp
    · have := ih (base + 1) c h
      simp only [List.length_cons]
      omega

theorem process_document_chunks_chunks (db : RagDB)
    (provider : List Char → Except String (List ℤ)) (cs : List StoredChunk) :
    (process_document_chunks db provider cs).1.chunks = db.chunks := rfl

theorem setDocStatus_chunks (db : RagDB) (docId : ℕ) (st : DocStatus) :
    (setDocStatus db docId st).chunks = db.chunks := rfl

theorem setDocStatus_embeddings (db : RagDB) (docId : ℕ) (st : DocStatus) :
    (setDocStatus db docId st).embeddings = db.embeddings := rfl

/-- Shape of the result of a successful run of `process_document`. -/
theorem process_document_eq_of_some (db : RagDB) (doc : StoredDoc)
    (text : List Char) (provider : List Char → Except String (List ℤ))
    (recs : List ChunkRec) (htext : text ≠ [])
    (hrecs : create_chunks chunkSize chunkOverlap text = some recs) :
    process_document db doc text provider =
      (setDocStatus (process_document_chunks
          (insertChunks (delete_old_chunks_and_embeddings db doc.id) doc.id recs).1
          provider
          (insertChunks (delete_old_chunks_and_embeddings db doc.id) doc.id recs).2).1
        doc.id .processed,
       .processed,
       .ok (recs.length,
         (process_document_chunks
           (insertChunks (delete_old_chunks_and_embeddings db doc.id) doc.id recs).1
           provider
           (insertChunks (delete_old_chunks_and_embeddings db doc.id) doc.id recs).2).2)) := by
  simp [process_document, htext, hrecs]

/-- After deleting a document's derived rows, that document has no chunks. -/
theorem chunksOf_delete (db : RagDB) (docId : ℕ) :
    chunksOf (delete_old_chunks_and_embeddings db docId) docId = [] := by
  simp only [chunksOf, delete_old_chunks_and_embeddings, List.filter_filter]
  rw [List.filter_eq_nil_iff]
  intro c _
  by_cases h : c.document_id = docId <;> simp [h]

/-- The chunks of the ingested document after a successful run are exactly the
freshly inserted rows. -/
theorem chunksOf_after_process (db : RagDB) (doc : StoredDoc)
    (text : List Char) (provider : List Char → Except String (List ℤ))
    (recs : List ChunkRec) (htext : text ≠ [])
    (hrecs : create_chunks chunkSize chunkOverlap text = some recs) :
    chunksOf (process_document db doc text provider).1 doc.id =
      mkStoredChunks doc.id db.nextChunkId recs := by
  rw [process_document_eq_of_some db doc text provider recs htext hrecs]
  show chunksOf (setDocStatus _ doc.id .processed) doc.id = _
  unfold chunksOf
  rw [setDocStatus_chunks, process_document_chunks_chunks]
  show ((delete_old_chunks_and_embeddings db doc.id).chunks ++
      mkStoredChunks doc.id (delete_old_chunks_and_embeddings db doc.id).nextChunkId recs).filter _ = _
  rw [List.filter_append]
  have h1 : ((delete_old_chunks_and_embeddings db doc.id).chunks.filter
      (fun c => c.document_id == doc.id)) = [] := chunksOf_delete db doc.id
  rw [h1, List.nil_append]
  have hnext : (delete_old_chunks_and_embeddings db doc.id).nextChunkId =
      db.nextChunkId := rfl
  rw [hnext]
  rw [List.filter_eq_self.mpr]
  intro c hc
  have := mkStoredChunks_document_id doc.id recs db.nextChunkId c hc
  simp [this]

theorem length_filter_split (p : α → Bool) (l : List α) :
    (l.filter p).length + (l.filter (fun a => !(p a))).length = l.length := by
  induction l with
  | nil => rfl
  | cons a as ih => cases h : p a <;> simp [List.filter_cons, h] <;> omega

/-- The counter returned by `process_document_chunks`, unfolded. -/
theorem process_document_chunks_snd (db : RagDB)
    (provider : List Char → Except String (List ℤ)) (cs : List StoredChunk) :
    (process_document_chunks db provider cs).2 =
      ((cs.filter (fun c =>
          (db.embeddings.find? (fun e => e.chunk_id == c.id)).isNone)).filterMap
        (fun c => match provider c.content with
          | .ok v => some (⟨c.id, v, embeddingModelId⟩ : StoredEmbedding)
          | .error _ => none)).length := rfl

/-- The embedding rows after `process_document_chunks`, unfolded. -/
theorem process_document_chunks_embeddings (db : RagDB)
    (provider : List Char → Except String (List ℤ)) (cs : List StoredChunk) :
    (process_document_chunks db provider cs).1.embeddings =
      db.embeddings ++
      ((cs.filter (fun c =>
          (db.embeddings.find? (fun e => e.chunk_id == c.id)).isNone)).filterMap
        (fun c => match provider c.content with
          | .ok v => some (⟨c.id, v, embeddingModelId⟩ : StoredEmbedding)
          | .error _ => none)) := rfl

theorem filterMap_embed_length
    (provider : List Char → Except String (List ℤ)) (cs : List StoredChunk) :
    (cs.filterMap (fun c => match provider c.content with
      | .ok v => some (⟨c.id, v, embeddingModelId⟩ : StoredEmbedding)
      | .error _ => none)).length =
    (cs.filter (fun c => embedSucceeds provider c.content)).length := by
  induction cs with
  | nil => rfl
  | cons c rest ih =>
    rw [List.filterMap_cons, List.filter_cons]
    cases hp : provider c.content with
    | ok v => simp [embedSucceeds, hp, ih]
    | error e => simp [embedSucceeds, hp, ih]

theorem mkStoredChunks_filter_embed_length
    (provider : List Char → Except String (List ℤ)) (docId : ℕ)
    (recs : List ChunkRec) :
    ∀ base, ((mkStoredChunks docId base recs).filter
        (fun c => embedSucceeds provider c.content)).length =
      (recs.filter (fun r => embedSucceeds provider r.content)).length := by
  induction recs with
  | nil => intro base; rfl
  | cons r rs ih =>
    intro base
    rw [mkStoredChunks, List.filter_cons, List.filter_cons]
    cases h : embedSucceeds provider r.content <;> simp [ih (base + 1)]

/-- A chunk id at or above the allocator bound has no embedding row. -/
theorem find?_embedding_fresh (embs : List StoredEmbedding) (cid bound : ℕ)
    (hwf : ∀ e ∈ embs, e.chunk_id < bound) (hcid : bound ≤ cid) :
    (embs.find? (fun e => e.chunk_id == cid)).isNone := by
  rw [Option.isNone_iff_eq_none, List.find?_eq_none]
  intro e he
  have := hwf e he
  simp only [beq_iff_eq]
  omega

theorem rollback_committed (s : ChatSession) :
    s.rollback.committed = s.committed := rfl

theorem commit_committed_messages (s : ChatSession) :
    s.commit.committed.messages = s.committed.messages ++ s.pendingMessages := rfl

theorem commit_committed_conversations (s : ChatSession) :
    s.commit.committed.conversations =
      s.committed.conversations ++ s.pendingConversations := rfl

/-- Outcome of `_get_or_create_conversation` when the lookup succeeds. -/
theorem get_or_create_found (s : ChatSession) (uid : ℕ) (cid : Option ℕ)
    (conv : Conversation) (hf : lookupConversation s uid cid = some conv) :
    get_or_create_conversation s uid cid = (s, conv) := by
  unfold get_or_create_conversation
  rw [hf]

/-- Outcome of `_get_or_create_conversation` when the lookup fails: a fresh
conversation with the placeholder title is created and committed. -/
theorem get_or_create_none (s : ChatSession) (uid : ℕ) (cid : Option ℕ)
    (hf : lookupConversation s uid cid = none) :
    get_or_create_conversation s uid cid =
      (ChatSession.commit { s with
          pendingConversations := s.pendingConversations ++
            [⟨s.nextConversationId, uid, "Nueva conversación"⟩]
          nextConversationId := s.nextConversationId + 1 },
       ⟨s.nextConversationId, uid, "Nueva conversación"⟩) := by
  unfold get_or_create_conversation
  rw [hf]

/-- `_get_or_create_conversation` on a session with no pending rows: committed
messages, pending rows and the message-id allocator are untouched, and the
committed conversations either stay unchanged (reuse) or gain exactly the
fresh placeholder conversation (creation). -/
theorem get_or_create_spec (s : ChatSession) (uid : ℕ) (cid : Option ℕ)
    (hpc : s.pendingConversations = []) (hpm : s.pendingMessages = []) :
    (get_or_create_conversation s uid cid).1.pendingConversations = [] ∧
    (get_or_create_conversation s uid cid).1.pendingMessages = [] ∧
    (get_or_create_conversation s uid cid).1.committed.messages =
      s.committed.messages ∧
    (get_or_create_conversation s uid cid).1.nextMessageId = s.nextMessageId ∧
    ((get_or_create_conversation s uid cid).1.committed.conversations =
        s.committed.conversations ∨
      (get_or_create_conversation s uid cid).1.committed.conversations =
        s.committed.conversations ++
          [⟨s.nextConversationId, uid, "Nueva conversación"⟩]) := by
  cases hf : lookupConversation s uid cid with
  | some conv =>
    rw [get_or_create_found s uid cid conv hf]
    exact ⟨hpc, hpm, rfl, rfl, Or.inl rfl⟩
  | none =>
    rw [get_or_create_none s uid cid hf]
    refine ⟨?_, ?_, ?_, rfl, Or.inr ?_⟩
    · rfl
    · rfl
    · show s.committed.messages ++ s.pendingMessages = s.committed.messages
      rw [hpm, List.append_nil]
    · show s.committed.conversations ++
        (s.pendingConversations ++ [⟨s.nextConversationId, uid, "Nueva conversación"⟩]) = _
      rw [hpc, List.nil_append]

/-- The turn run with a failure injected at the user-message flush. -/
theorem scr_atUserFlush (s : ChatSession) (uid : ℕ) (msg : String)
    (cid : Option ℕ) (use_rag : Bool) (ctx : Option String) (clientOk : Bool)
    (toks : List String) (perr : Option String) :
    stream_chat_response s (some uid) msg cid use_rag ctx clientOk toks perr
        (some .atUserFlush) =
      (ChatSession.rollback { (get_or_create_conversation s uid cid).1 with
          pendingMessages :=
            (get_or_create_conversation s uid cid).1.pendingMessages ++
              [⟨(get_or_create_conversation s uid cid).1.nextMessageId,
                (get_or_create_conversation s uid cid).2.id, "user", msg⟩]
          nextMessageId :=
            (get_or_create_conversation s uid cid).1.nextMessageId + 1 },
       [ChatEvent.error "user message flush failed"]) := rfl

/-- The turn run with a failure injected after streaming, before the
assistant message is persisted. -/
theorem scr_afterStreaming (s : ChatSession) (uid : ℕ) (msg : String)
    (cid : Option ℕ) (use_rag : Bool) (ctx : Option String) (clientOk : Bool)
    (toks : List String) (perr : Option String) :
    stream_chat_response s (some uid) msg cid use_rag ctx clientOk toks perr
        (some .afterStreaming) =
      (ChatSession.rollback { (get_or_create_conversation s uid cid).1 with
          pendingMessages :=
            (get_or_create_conversation s uid cid).1.pendingMessages ++
              [⟨(get_or_create_conversation s uid cid).1.nextMessageId,
                (get_or_create_conversation s uid cid).2.id, "user", msg⟩]
          nextMessageId :=
            (get_or_create_conversation s uid cid).1.nextMessageId + 1 },
       (stream_chat clientOk use_rag (if use_rag then ctx else none)
         toks perr).1.map ChatEvent.token ++
           [ChatEvent.error "assistant persistence failed"]) := rfl

/-- The turn run with a failure injected at the final commit. -/
theorem scr_atCommit (s : ChatSession) (uid : ℕ) (msg : String)
    (cid : Option ℕ) (use_rag : Bool) (ctx : Option String) (clientOk : Bool)
    (toks : List String) (perr : Option String) :
    stream_chat_response s (some uid) msg cid use_rag ctx clientOk toks perr
        (some .atCommit) =
      (ChatSession.rollback { (get_or_create_conversation s uid cid).1 with
          pendingMessages :=
            (get_or_create_conversation s uid cid).1.pendingMessages ++
              [⟨(get_or_create_conversation s uid cid).1.nextMessageId,
                (get_or_create_conversation s uid cid).2.id, "user", msg⟩,
               ⟨(get_or_create_conversation s uid cid).1.nextMessageId + 1,
                (get_or_create_conversation s uid cid).2.id, "assistant",
                String.join (stream_chat clientOk use_rag
                  (if use_rag then ctx else none) toks perr).1⟩]
          nextMessageId :=
            (get_or_create_conversation s uid cid).1.nextMessageId + 2 },
       (stream_chat clientOk use_rag (if use_rag then ctx else none)
         toks perr).1.map ChatEvent.token ++
           [ChatEvent.error "commit failed"]) := rfl

/-- The turn run with no injected failure: both messages commit together and
the stream ends with a single `done` event. -/
theorem scr_success (s : ChatSession) (uid : ℕ) (msg : String)
    (cid : Option ℕ) (use_rag : Bool) (ctx : Option String) (clientOk : Bool)
    (toks : List String) (perr : Option String) :
    stream_chat_response s (some uid) msg cid use_rag ctx clientOk toks perr
        none =
      (ChatSession.commit { (get_or_create_conversation s uid cid).1 with
          pendingMessages :=
            ((get_or_create_conversation s uid cid).1.pendingMessages ++
              [⟨(get_or_create_conversation s uid cid).1.nextMessageId,
                (get_or_create_conversation s uid cid).2.id, "user", msg⟩]) ++
              [⟨(get_or_create_conversation s uid cid).1.nextMessageId + 1,
                (get_or_create_conversation s uid cid).2.id, "assistant",
                String.join (stream_chat clientOk use_rag
                  (if use_rag then ctx else none) toks perr).1⟩]
          nextMessageId :=
            (get_or_create_conversation s uid cid).1.nextMessageId + 2 },
       (stream_chat clientOk use_rag (if use_rag then ctx else none)
         toks perr).1.map ChatEvent.token ++
           [ChatEvent.done (some (get_or_create_conversation s uid cid).2.id)
             (some ((get_or_create_conversation s uid cid).1.nextMessageId + 1))]) := rfl

/-- The lookup fails when no truthy owned conversation id is supplied. -/
theorem lookupConversation_eq_none (s : ChatSession) (uid : ℕ) (cid : Option ℕ)
    (hpc : s.pendingConversations = [])
    (hnotowned : ∀ c, cid = some c →
      ∀ conv ∈ s.committed.conversations, ¬(conv.id = c ∧ conv.user_id = uid)) :
    lookupConversation s uid cid = none := by
  cases cid with
  | none => rfl
  | some c =>
    have heq : lookupConversation s uid (some c) =
        if c ≠ 0 then
          s.viewConversations.find? (fun cc => cc.id == c && cc.user_id == uid)
        else none := rfl
    by_cases hc : c ≠ 0
    · rw [heq, if_pos hc, List.find?_eq_none]
      intro conv hconv
      have hm : conv ∈ s.committed.conversations := by
        rw [ChatSession.viewConversations, hpc, List.append_nil] at hconv
        exact hconv
      have := hnotowned c rfl conv hm
      simp only [Bool.and_eq_true, beq_iff_eq]
      tauto
    · rw [heq, if_neg hc]

/-- When the refusal guard does not fire and the client is configured, a
provider failure is forwarded as a final `"Error: …"` fragment of the
stream, and the provider counts as called. -/
theorem stream_chat_provider_failure (use_rag : Bool) (ctx : Option String)
    (toks : List String) (e : String)
    (h1 : (use_rag && ragContextMissing ctx) = false) :
    stream_chat true use_rag ctx toks (some e) =
      (toks ++ ["Error: " ++ e], true) := by
  unfold stream_chat
  rw [h1]
  rfl

/-- Token events carry no error event. -/
theorem filter_isError_map_token (l : List String) :
    (l.map ChatEvent.token).filter ChatEvent.isError = [] := by
  induction l with
  | nil => rfl
  | cons a as ih => simp [ChatEvent.isError, ih]

/-- Token events are not terminal. -/
theorem filter_isTerminal_map_token (l : List String) :
    (l.map ChatEvent.token).filter ChatEvent.isTerminal = [] := by
  induction l with
  | nil => rfl
  | cons a as ih => simp [ChatEvent.isTerminal, ih]

/-- Membership in the deleted store's embeddings. -/
theorem mem_delete_embeddings (db : RagDB) (docId : ℕ) (e : StoredEmbedding) :
    e ∈ (delete_old_chunks_and_embeddings db docId).embeddings ↔
      e ∈ db.embeddings ∧
        ¬ e.chunk_id ∈ (chunksOf db docId).map StoredChunk.id := by
  simp [delete_old_chunks_and_embeddings, List.mem_filter]

/-- Membership in the deleted store's chunks. -/
theorem mem_delete_chunks (db : RagDB) (docId : ℕ) (c : StoredChunk) :
    c ∈ (delete_old_chunks_and_embeddings db docId).chunks ↔
      c ∈ db.chunks ∧ c.document_id ≠ docId := by
  simp [delete_old_chunks_and_embeddings, List.mem_filter]

/-- Every embedding row produced by the fan-out references one of the input
chunks. -/
theorem mem_embed_filterMap (provider : List Char → Except String (List ℤ))
    (cs : List StoredChunk) (e : StoredEmbedding)
    (he : e ∈ cs.filterMap (fun c => match provider c.content with
      | .ok v => some (⟨c.id, v, embeddingModelId⟩ : StoredEmbedding)
      | .error _ => none)) :
    ∃ c ∈ cs, e.chunk_id = c.id := by
  rcases List.mem_filterMap.mp he with ⟨c, hc, hf⟩
  cases hp : provider c.content with
  | ok v => rw [hp] at hf; cases hf; exact ⟨c, hc, rfl⟩
  | error err => rw [hp] at hf; cases hf

/-- The chunk store after a successful run, in terms of the input store. -/
theorem chunks_after_process (db : RagDB) (doc : StoredDoc) (text : List Char)
    (provider : List Char → Except String (List ℤ)) (recs : List ChunkRec)
    (htext : text ≠ [])
    (hrecs : create_chunks chunkSize chunkOverlap text = some recs) :
    (process_document db doc text provider).1.chunks =
      (delete_old_chunks_and_embeddings db doc.id).chunks ++
        mkStoredChunks doc.id db.nextChunkId recs := by
  rw [process_document_eq_of_some db doc text provider recs htext hrecs]
  rfl

/-- The embedding store after a successful run, in terms of the input store. -/
theorem embeddings_after_process (db : RagDB) (doc : StoredDoc)
    (text : List Char) (provider : List Char → Except String (List ℤ))
    (recs : List ChunkRec) (htext : text ≠ [])
    (hrecs : create_chunks chunkSize chunkOverlap text = some recs) :
    (process_document db doc text provider).1.embeddings =
      (delete_old_chunks_and_embeddings db doc.id).embeddings ++
      (((mkStoredChunks doc.id db.nextChunkId recs).filter (fun c =>
          ((delete_old_chunks_and_embeddings db doc.id).embeddings.find?
            (fun e => e.chunk_id == c.id)).isNone)).filterMap
        (fun c => match provider c.content with
          | .ok v => some (⟨c.id, v, embeddingModelId⟩ : StoredEmbedding)
          | .error _ => none)) := by
  rw [process_document_eq_of_some db doc text provider recs htext hrecs]
  exact process_document_chunks_embeddings _ provider _

/-- The chunk-id allocator after a successful run. -/
theorem nextChunkId_after_process (db : RagDB) (doc : StoredDoc)
    (text : List Char) (provider : List Char → Except String (List ℤ))
    (recs : List ChunkRec) (htext : text ≠ [])
    (hrecs : create_chunks chunkSize chunkOverlap text = some recs) :
    (process_document db doc text provider).1.nextChunkId =
      db.nextChunkId + recs.length := by
  rw [process_document_eq_of_some db doc text provider recs htext hrecs]
  rfl

/-- The returned pair of a successful run: the chunk count and the number of
chunks whose embedding request succeeded. -/
theorem process_document_result (db : RagDB) (doc : StoredDoc)
    (text : List Char) (provider : List Char → Except String (List ℤ))
    (recs : List ChunkRec) (htext : text ≠ [])
    (hrecs : create_chunks chunkSize chunkOverlap text = some recs)
    (hwf : ∀ e ∈ db.embeddings, e.chunk_id < db.nextChunkId) :
    (process_document db doc text provider).2.2 =
      Except.ok (recs.length,
        (recs.filter (fun r => embedSucceeds provider r.content)).length) := by
  have hnone : ∀ c ∈ (insertChunks (delete_old_chunks_and_embeddings db doc.id)
      doc.id recs).2,
      ((insertChunks (delete_old_chunks_and_embeddings db doc.id)
        doc.id recs).1.embeddings.find?
          (fun e => e.chunk_id == c.id)).isNone := by
    intro c hc
    have hwf1 : ∀ e ∈ (insertChunks (delete_old_chunks_and_embeddings db doc.id)
        doc.id recs).1.embeddings, e.chunk_id < db.nextChunkId := by
      intro e he
      exact hwf e (List.mem_filter.mp he).1
    exact find?_embedding_fresh _ c.id db.nextChunkId hwf1
      (mkStoredChunks_id_bounds doc.id recs db.nextChunkId c hc).1
  rw [process_document_eq_of_some db doc text provider recs htext hrecs]
  show Except.ok (recs.length, _) = _
  rw [process_document_chunks_snd, List.filter_eq_self.mpr hnone,
    filterMap_embed_length]
  rw [show (insertChunks (delete_old_chunks_and_embeddings db doc.id)
      doc.id recs).2 = mkStoredChunks doc.id db.nextChunkId recs from rfl]
  rw [mkStoredChunks_filter_embed_length]

/-- A row of the search join carries its parent document row, whose id is the
chunk's `document_id`. -/
theorem joinRows_doc (db : RagDB) (r : SearchRow) (hr : r ∈ joinRows db) :
    r.doc ∈ db.docs ∧ r.doc.id = r.chunk.document_id := by
  unfold joinRows at hr
  rcases List.mem_filterMap.mp hr with ⟨c, _, hf⟩
  cases he : db.embeddings.find? (fun e => e.chunk_id == c.id) with
  | none => rw [he] at hf; cases hf
  | some e =>
    cases hd : db.docs.find? (fun d => d.id == c.document_id) with
    | none => rw [he, hd] at hf; cases hf
    | some d =>
      rw [he, hd] at hf
      cases hf
      refine ⟨List.mem_of_find?_eq_some hd, ?_⟩
      have := List.find?_some hd
      simpa using this

/-! ## Claim theorems -/

/-- C2: for every chat turn with retrieval enabled whose retrieved context is
absent or empty, the generation step's output is exactly the fixed refusal
string "Lo siento, no encontré información sobre eso en los documentos
disponibles." and the generation provider is not called. -/
theorem C2_rag_refusal (clientOk : Bool) (toks : List String)
    (perr : Option String) (ctx : Option String)
    (hctx : ctx = none ∨ ctx = some "") :
    stream_chat clientOk true ctx toks perr = ([refusalMessage], false) := by
  rcases hctx with h | h <;> subst h <;> rfl

/-- Witness for C2 at a concrete input. -/
theorem C2_rag_refusal_witness :
    stream_chat true true none ["tok"] none = ([refusalMessage], false) :=
  C2_rag_refusal true ["tok"] none none (Or.inl rfl)

/-- C7: the chunking loop terminates for every input text at the deployed
parameters (L = 1000, O = 200), and in particular the regression input
"A. B. C." with L = 4, O = 1 terminates (after three chunks the loop exits),
the advance step being `next_start = end - O` and an empty-after-trim window
breaking the loop. -/
theorem C7_chunker_termination (text : List Char) :
    (create_chunks chunkSize chunkOverlap text).isSome ∧
    create_chunks 4 1 ("A. B. C.".toList) = some
      [⟨0, "A. B".toList, 0, 4, 4⟩,
       ⟨1, "B. C".toList, 3, 7, 4⟩,
       ⟨2, "C.".toList, 6, 10, 2⟩] := by
  constructor
  · exact create_chunks_loop_isSome chunkSize chunkOverlap (by norm_num [chunkSize])
      (by norm_num [chunkSize, chunkOverlap]) text (text.length + 1) 0 0 (by omega)
  · decide

/-- C9: after any successful ingestion, the `chunk_index` values of the
document's persisted chunks are exactly `0 .. N-1` in emission order, with no
gaps and no duplicates. -/
theorem C9_chunk_index_contiguity (db : RagDB) (doc : StoredDoc)
    (text : List Char) (provider : List Char → Except String (List ℤ))
    (recs : List ChunkRec) (htext : text ≠ [])
    (hrecs : create_chunks chunkSize chunkOverlap text = some recs) :
    ∃ embCount,
      (process_document db doc text provider).2.2 =
        Except.ok (recs.length, embCount) ∧
      (chunksOf (process_document db doc text provider).1 doc.id).map
          StoredChunk.chunk_index = List.range recs.length := by
  refine ⟨(process_document_chunks
      (insertChunks (delete_old_chunks_and_embeddings db doc.id) doc.id recs).1
      provider
      (insertChunks (delete_old_chunks_and_embeddings db doc.id) doc.id recs).2).2,
    ?_, ?_⟩
  · rw [process_document_eq_of_some db doc text provider recs htext hrecs]
  · rw [chunksOf_after_process db doc text provider recs htext hrecs]
    rw [mkStoredChunks_map_index]
    have hidx := create_chunks_loop_indices chunkSize chunkOverlap text
      (text.length + 1) 0 0 recs hrecs
    rw [hidx, ← mkStoredChunks_length doc.id recs db.nextChunkId]
    rw [mkStoredChunks_length doc.id recs db.nextChunkId]
    exact (List.range_eq_range' recs.length).symm

/-- Witness for C9 at a concrete input: ingesting the two-character text "hi"
into an empty store yields one chunk with index 0. -/
theorem C9_chunk_index_contiguity_witness :
    ∃ embCount,
      (process_document ⟨1, [⟨1, 1, "f.txt", DocStatus.uploaded⟩], [], []⟩
          ⟨1, 1, "f.txt", DocStatus.uploaded⟩ ("hi".toList)
          (fun _ => Except.ok [1])).2.2 = Except.ok (1, embCount) ∧
      (chunksOf (process_document ⟨1, [⟨1, 1, "f.txt", DocStatus.uploaded⟩], [], []⟩
          ⟨1, 1, "f.txt", DocStatus.uploaded⟩ ("hi".toList)
          (fun _ => Except.ok [1])).1 1).map StoredChunk.chunk_index =
        List.range 1 := by
  have h := C9_chunk_index_contiguity
    ⟨1, [⟨1, 1, "f.txt", DocStatus.uploaded⟩], [], []⟩
    ⟨1, 1, "f.txt", DocStatus.uploaded⟩ ("hi".toList) (fun _ => Except.ok [1])
    [⟨0, "hi".toList, 0, 1000, 2⟩] (by decide) (by decide)
  exact h

/-- C1: for every authenticated chat turn, an exception at any of the turn's
database operations (modelled by the injected fail point) rolls back all of
the turn's uncommitted writes — in particular the user message flushed
during the turn does not exist in committed state afterwards and nothing is
left pending — and the stream then ends with exactly one terminal event,
which is an `error` event; on the no-failure path the turn's user message
and assistant message enter committed state together through the turn's
single final commit. -/
theorem C1_turn_rollback_atomicity (s : ChatSession) (uid : ℕ) (msg : String)
    (cid : Option ℕ) (use_rag : Bool) (ctx : Option String) (clientOk : Bool)
    (toks : List String) (perr : Option String) (fp : FailPoint)
    (hpc : s.pendingConversations = []) (hpm : s.pendingMessages = []) :
    (stream_chat_response s (some uid) msg cid use_rag ctx clientOk toks perr
        (some fp)).1.committed.messages = s.committed.messages ∧
    (stream_chat_response s (some uid) msg cid use_rag ctx clientOk toks perr
        (some fp)).1.pendingMessages = [] ∧
    ((stream_chat_response s (some uid) msg cid use_rag ctx clientOk toks perr
        (some fp)).2.filter ChatEvent.isError).length = 1 ∧
    ((stream_chat_response s (some uid) msg cid use_rag ctx clientOk toks perr
        (some fp)).2.filter ChatEvent.isTerminal).length = 1 ∧
    (∃ emsg, (stream_chat_response s (some uid) msg cid use_rag ctx clientOk
        toks perr (some fp)).2.getLast? = some (ChatEvent.error emsg)) ∧
    (stream_chat_response s (some uid) msg cid use_rag ctx clientOk toks perr
        none).1.committed.messages =
      s.committed.messages ++
        [⟨s.nextMessageId, (get_or_create_conversation s uid cid).2.id,
          "user", msg⟩,
         ⟨s.nextMessageId + 1, (get_or_create_conversation s uid cid).2.id,
          "assistant", String.join (stream_chat clientOk use_rag
            (if use_rag then ctx else none) toks perr).1⟩] := by
  obtain ⟨hg1, hg2, hg3, hg4, _⟩ := get_or_create_spec s uid cid hpc hpm
  refine ⟨?_, ?_, ?_, ?_, ?_, ?_⟩
  · cases fp with
    | atUserFlush => rw [scr_atUserFlush]; exact hg3
    | afterStreaming => rw [scr_afterStreaming]; exact hg3
    | atCommit => rw [scr_atCommit]; exact hg3
  · cases fp <;> rfl
  · cases fp with
    | atUserFlush => rfl
    | afterStreaming =>
      rw [scr_afterStreaming, List.filter_append, filter_isError_map_token]
      simp [ChatEvent.isError]
    | atCommit =>
      rw [scr_atCommit, List.filter_append, filter_isError_map_token]
      simp [ChatEvent.isError]
  · cases fp with
    | atUserFlush => rfl
    | afterStreaming =>
      rw [scr_afterStreaming, List.filter_append, filter_isTerminal_map_token]
      simp [ChatEvent.isTerminal]
    | atCommit =>
      rw [scr_atCommit, List.filter_append, filter_isTerminal_map_token]
      simp [ChatEvent.isTerminal]
  · cases fp with
    | atUserFlush => exact ⟨"user message flush failed", rfl⟩
    | afterStreaming =>
      refine ⟨"assistant persistence failed", ?_⟩
      rw [scr_afterStreaming]
      exact List.getLast?_concat _
    | atCommit =>
      refine ⟨"commit failed", ?_⟩
      rw [scr_atCommit]
      exact List.getLast?_concat _
  · rw [scr_success]
    simp only [ChatSession.commit]
    simp [hg2, hg3, hg4]

/-- Witness for C1 at a concrete input: a failure injected after streaming
completes and, on the no-failure run, the committed pair of messages. -/
theorem C1_turn_rollback_atomicity_witness :
    (stream_chat_response ⟨⟨[], []⟩, [], [], 1, 1⟩ (some 1) "hola" none false
        none true ["Hola"] none (some .afterStreaming)).1.committed.messages =
      [] ∧
    (stream_chat_response ⟨⟨[], []⟩, [], [], 1, 1⟩ (some 1) "hola" none false
        none true ["Hola"] none (some .afterStreaming)).1.pendingMessages =
      [] ∧
    ((stream_chat_response ⟨⟨[], []⟩, [], [], 1, 1⟩ (some 1) "hola" none false
        none true ["Hola"] none
        (some .afterStreaming)).2.filter ChatEvent.isError).length = 1 ∧
    ((stream_chat_response ⟨⟨[], []⟩, [], [], 1, 1⟩ (some 1) "hola" none false
        none true ["Hola"] none
        (some .afterStreaming)).2.filter ChatEvent.isTerminal).length = 1 ∧
    (∃ emsg, (stream_chat_response ⟨⟨[], []⟩, [], [], 1, 1⟩ (some 1) "hola"
        none false none true ["Hola"] none
        (some .afterStreaming)).2.getLast? = some (ChatEvent.error emsg)) ∧
    (stream_chat_response ⟨⟨[], []⟩, [], [], 1, 1⟩ (some 1) "hola" none false
        none true ["Hola"] none none).1.committed.messages =
      [] ++
        [⟨1, (get_or_create_conversation ⟨⟨[], []⟩, [], [], 1, 1⟩ 1 none).2.id,
          "user", "hola"⟩,
         ⟨2, (get_or_create_conversation ⟨⟨[], []⟩, [], [], 1, 1⟩ 1 none).2.id,
          "assistant", String.join (stream_chat true false
            (if false then none else none) ["Hola"] none).1⟩] :=
  C1_turn_rollback_atomicity ⟨⟨[], []⟩, [], [], 1, 1⟩ 1 "hola" none false none
    true ["Hola"] none .afterStreaming rfl rfl

/-- C10: when an authenticated chat turn supplies no conversation id, or an
id not owned by the caller, the newly created conversation (placeholder
title "Nueva conversación", owned by the caller) is committed by its own
commit before the turn's messages are written; if the turn later fails at
any database operation and rolls back, that conversation still exists in
committed state and has zero committed messages. -/
theorem C10_conversation_creation_survives_rollback (s : ChatSession)
    (uid : ℕ) (msg : String) (cid : Option ℕ) (use_rag : Bool)
    (ctx : Option String) (clientOk : Bool) (toks : List String)
    (perr : Option String) (fp : FailPoint)
    (hpc : s.pendingConversations = []) (hpm : s.pendingMessages = [])
    (hwfm : ∀ m ∈ s.committed.messages,
      m.conversation_id < s.nextConversationId)
    (hnotowned : ∀ c, cid = some c →
      ∀ conv ∈ s.committed.conversations,
        ¬(conv.id = c ∧ conv.user_id = uid)) :
    (⟨s.nextConversationId, uid, "Nueva conversación"⟩ : Conversation) ∈
      (stream_chat_response s (some uid) msg cid use_rag ctx clientOk toks
        perr (some fp)).1.committed.conversations ∧
    ∀ m ∈ (stream_chat_response s (some uid) msg cid use_rag ctx clientOk
        toks perr (some fp)).1.committed.messages,
      m.conversation_id ≠ s.nextConversationId := by
  have hlook := lookupConversation_eq_none s uid cid hpc hnotowned
  have hg := get_or_create_none s uid cid hlook
  have hconvs : (get_or_create_conversation s uid cid).1.committed.conversations =
      s.committed.conversations ++
        [⟨s.nextConversationId, uid, "Nueva conversación"⟩] := by
    rw [hg]
    show s.committed.conversations ++
      (s.pendingConversations ++ [⟨s.nextConversationId, uid, "Nueva conversación"⟩]) = _
    rw [hpc, List.nil_append]
  have hmsgs : (get_or_create_conversation s uid cid).1.committed.messages =
      s.committed.messages := by
    rw [hg]
    show s.committed.messages ++ s.pendingMessages = _
    rw [hpm, List.append_nil]
  have hallc : (stream_chat_response s (some uid) msg cid use_rag ctx clientOk
      toks perr (some fp)).1.committed.conversations =
      s.committed.conversations ++
        [⟨s.nextConversationId, uid, "Nueva conversación"⟩] := by
    cases fp with
    | atUserFlush => rw [scr_atUserFlush]; exact hconvs
    | afterStreaming => rw [scr_afterStreaming]; exact hconvs
    | atCommit => rw [scr_atCommit]; exact hconvs
  have hallm : (stream_chat_response s (some uid) msg cid use_rag ctx clientOk
      toks perr (some fp)).1.committed.messages = s.committed.messages := by
    cases fp with
    | atUserFlush => rw [scr_atUserFlush]; exact hmsgs
    | afterStreaming => rw [scr_afterStreaming]; exact hmsgs
    | atCommit => rw [scr_atCommit]; exact hmsgs
  constructor
  · rw [hallc]
    exact List.mem_append_right _ (List.mem_singleton.mpr rfl)
  · intro m hm
    rw [hallm] at hm
    have := hwfm m hm
    omega

/-- Witness for C10 at a concrete input: a turn with no conversation id whose
commit fails; the fresh conversation is still committed afterwards with no
committed messages. -/
theorem C10_conversation_creation_survives_rollback_witness :
    (⟨1, 1, "Nueva conversación"⟩ : Conversation) ∈
      (stream_chat_response ⟨⟨[], []⟩, [], [], 1, 1⟩ (some 1) "hola" none
        false none true ["Hola"] none
        (some .atCommit)).1.committed.conversations ∧
    ∀ m ∈ (stream_chat_response ⟨⟨[], []⟩, [], [], 1, 1⟩ (some 1) "hola" none
        false none true ["Hola"] none
        (some .atCommit)).1.committed.messages,
      m.conversation_id ≠ 1 :=
  C10_conversation_creation_survives_rollback ⟨⟨[], []⟩, [], [], 1, 1⟩ 1
    "hola" none false none true ["Hola"] none .atCommit rfl rfl
    (by intro m hm; cases hm) (by intro c hc; cases hc)

/-- C8 counterexample: a generation-provider failure during token streaming
does not surface as a terminal `error` event — the worker forwards the error
text as an ordinary token event and the turn still terminates with a `done`
event (a `done` event for a failed generation). -/
theorem C8_provider_failure_counterexample :
    (stream_chat_response ⟨⟨[], []⟩, [], [], 1, 1⟩ (some 1) "hola" none false
        none true ["Hola"] (some "boom") none).2 =
      [ChatEvent.token "Hola", ChatEvent.token "Error: boom",
       ChatEvent.done (some 1) (some 2)] ∧
    ((stream_chat_response ⟨⟨[], []⟩, [], [], 1, 1⟩ (some 1) "hola" none false
        none true ["Hola"] (some "boom") none).2.filter
      ChatEvent.isError) = [] := by
  constructor
  · rfl
  · rfl

/-- C8 (amended): when the generation provider fails during token streaming
on a turn whose generation step is actually invoked (configured client, no
refusal guard) and no orchestrator-level exception occurs, the failure is
surfaced as a final token event `"Error: …"`, the assistant message ending
in that text is persisted with the user message, and the stream terminates
with exactly one terminal event, a `done` event — a terminal `error` event
arises only from orchestrator-level exceptions. -/
theorem C8_provider_failure_streams_error_token (s : ChatSession) (uid : ℕ)
    (msg : String) (cid : Option ℕ) (use_rag : Bool) (ctx : Option String)
    (toks : List String) (e : String)
    (hpc : s.pendingConversations = []) (hpm : s.pendingMessages = [])
    (hguard : (use_rag && ragContextMissing
      (if use_rag then ctx else none)) = false) :
    (stream_chat_response s (some uid) msg cid use_rag ctx true toks (some e)
        none).2 =
      (toks ++ ["Error: " ++ e]).map ChatEvent.token ++
        [ChatEvent.done (some (get_or_create_conversation s uid cid).2.id)
          (some (s.nextMessageId + 1))] ∧
    ((stream_chat_response s (some uid) msg cid use_rag ctx true toks (some e)
        none).2.filter ChatEvent.isTerminal).length = 1 ∧
    ((stream_chat_response s (some uid) msg cid use_rag ctx true toks (some e)
        none).2.filter ChatEvent.isError).length = 0 ∧
    (stream_chat_response s (some uid) msg cid use_rag ctx true toks (some e)
        none).1.committed.messages =
      s.committed.messages ++
        [⟨s.nextMessageId, (get_or_create_conversation s uid cid).2.id,
          "user", msg⟩,
         ⟨s.nextMessageId + 1, (get_or_create_conversation s uid cid).2.id,
          "assistant", String.join (toks ++ ["Error: " ++ e])⟩] := by
  obtain ⟨hg1, hg2, hg3, hg4, _⟩ := get_or_create_spec s uid cid hpc hpm
  have hout := stream_chat_provider_failure use_rag
    (if use_rag then ctx else none) toks e hguard
  refine ⟨?_, ?_, ?_, ?_⟩
  · rw [scr_success, hout, hg4]
  · rw [scr_success, hout, List.filter_append, filter_isTerminal_map_token]
    simp [ChatEvent.isTerminal]
  · rw [scr_success, hout, List.filter_append, filter_isError_map_token]
    simp [ChatEvent.isError]
  · rw [scr_success]
    simp only [ChatSession.commit]
    simp [hg2, hg3, hg4, hout]

/-- Witness for C8 at a concrete input: provider failure "boom" after the
token "Hola" on a non-RAG authenticated turn. -/
theorem C8_provider_failure_streams_error_token_witness :
    (stream_chat_response ⟨⟨[], []⟩, [], [], 1, 1⟩ (some 1) "hola" none false
        none true ["Hola"] (some "boom") none).2 =
      (["Hola"] ++ ["Error: " ++ "boom"]).map ChatEvent.token ++
        [ChatEvent.done
          (some (get_or_create_conversation ⟨⟨[], []⟩, [], [], 1, 1⟩ 1 none).2.id)
          (some 2)] ∧
    ((stream_chat_response ⟨⟨[], []⟩, [], [], 1, 1⟩ (some 1) "hola" none false
        none true ["Hola"] (some "boom") none).2.filter
      ChatEvent.isTerminal).length = 1 ∧
    ((stream_chat_response ⟨⟨[], []⟩, [], [], 1, 1⟩ (some 1) "hola" none false
        none true ["Hola"] (some "boom") none).2.filter
      ChatEvent.isError).length = 0 ∧
    (stream_chat_response ⟨⟨[], []⟩, [], [], 1, 1⟩ (some 1) "hola" none false
        none true ["Hola"] (some "boom") none).1.committed.messages =
      [] ++
        [⟨1, (get_or_create_conversation ⟨⟨[], []⟩, [], [], 1, 1⟩ 1 none).2.id,
          "user", "hola"⟩,
         ⟨2, (get_or_create_conversation ⟨⟨[], []⟩, [], [], 1, 1⟩ 1 none).2.id,
          "assistant", String.join (["Hola"] ++ ["Error: " ++ "boom"])⟩] :=
  C8_provider_failure_streams_error_token ⟨⟨[], []⟩, [], [], 1, 1⟩ 1 "hola"
    none false none ["Hola"] "boom" rfl rfl rfl

/-- C3 (amended): for every distance function, every *nonzero* owner id A and
every k, the similarity search with owner filter A returns only chunks whose
parent document is owned by A, the owner filter being applied to the joined
row set before ranking and truncation, and the number of results is exactly
`min k (eligible chunks with embeddings owned by A)`.  (The restriction to
nonzero ids is forced by Python truthiness: `if user_id:` treats owner id 0
like "no filter".) -/
theorem C3_search_owner_scoping (db : RagDB) (dist : List ℤ → ℤ) (uid k : ℕ)
    (huid : uid ≠ 0) :
    (∀ c ∈ search_similar_chunks db dist (some uid) k,
      ∃ d ∈ db.docs, d.id = c.document_id ∧ d.user_id = uid) ∧
    (search_similar_chunks db dist (some uid) k).length =
      min k (eligibleRows db uid).length := by
  have ht : userIdTruthy (some uid) = true := by
    simp [userIdTruthy]
    omega
  constructor
  · intro c hc
    simp only [search_similar_chunks, ht, if_true] at hc
    rcases List.mem_map.mp hc with ⟨r, hr, hrc⟩
    have hr2 : r ∈ sortByLe (fun a b => dist a.emb.vec ≤ dist b.emb.vec)
        ((joinRows db).filter (fun r => r.doc.user_id == (some uid).getD 0)) :=
      List.mem_of_mem_take hr
    rw [mem_sortByLe] at hr2
    rcases List.mem_filter.mp hr2 with ⟨hj, hpred⟩
    have hdoc := joinRows_doc db r hj
    refine ⟨r.doc, hdoc.1, ?_, ?_⟩
    · rw [← hrc]; exact hdoc.2
    · simpa using hpred
  · simp only [search_similar_chunks, ht, if_true, List.length_map,
      List.length_take, length_sortByLe, eligibleRows, Option.getD_some]

/-- Counterexample to C3 as stated: a search scoped to owner id 0 returns a
chunk whose parent document belongs to owner 7 — the Python truthiness check
`if user_id:` silently drops the owner filter for id 0. -/
theorem C3_search_owner_scoping_counterexample :
    let exdb : RagDB :=
      ⟨2, [⟨1, 7, "d1", DocStatus.processed⟩], [⟨1, 1, 0, "x".toList⟩],
       [⟨1, [5], "m"⟩]⟩
    ∃ c ∈ search_similar_chunks exdb (fun _ => 0) (some 0) 5,
      ∃ d ∈ exdb.docs, d.id = c.document_id ∧ d.user_id ≠ 0 := by
  decide

/-- Witness for C3 at a concrete input: two documents owned by users 1 and 2,
one embedded chunk each; the search scoped to owner 1 returns only owner 1's
chunk and exactly `min 5 1` results. -/
theorem C3_search_owner_scoping_witness :
    (1 : ℕ) ≠ 0 ∧
    ((∀ c ∈ search_similar_chunks
        ⟨3, [⟨1, 1, "a", DocStatus.processed⟩, ⟨2, 2, "b", DocStatus.processed⟩],
         [⟨1, 1, 0, "x".toList⟩, ⟨2, 2, 0, "y".toList⟩],
         [⟨1, [1], "m"⟩, ⟨2, [2], "m"⟩]⟩ (fun _ => 0) (some 1) 5,
      ∃ d ∈ (⟨3, [⟨1, 1, "a", DocStatus.processed⟩, ⟨2, 2, "b", DocStatus.processed⟩],
         [⟨1, 1, 0, "x".toList⟩, ⟨2, 2, 0, "y".toList⟩],
         [⟨1, [1], "m"⟩, ⟨2, [2], "m"⟩]⟩ : RagDB).docs,
        d.id = c.document_id ∧ d.user_id = 1) ∧
    (search_similar_chunks
        ⟨3, [⟨1, 1, "a", DocStatus.processed⟩, ⟨2, 2, "b", DocStatus.processed⟩],
         [⟨1, 1, 0, "x".toList⟩, ⟨2, 2, 0, "y".toList⟩],
         [⟨1, [1], "m"⟩, ⟨2, [2], "m"⟩]⟩ (fun _ => 0) (some 1) 5).length =
      min 5 (eligibleRows
        ⟨3, [⟨1, 1, "a", DocStatus.processed⟩, ⟨2, 2, "b", DocStatus.processed⟩],
         [⟨1, 1, 0, "x".toList⟩, ⟨2, 2, 0, "y".toList⟩],
         [⟨1, [1], "m"⟩, ⟨2, [2], "m"⟩]⟩ 1).length) :=
  ⟨by decide, C3_search_owner_scoping _ (fun _ => 0) 1 5 (by decide)⟩

/-- C4: if during ingestion the embedding provider fails for exactly one of
the document's N chunks, the failure is isolated to that chunk: the run
still succeeds and returns `embeddings_created = chunks_created - 1`, the
document's final status is `processed`, and every chunk whose embedding
request succeeded has a persisted embedding row. -/
theorem C4_partial_embedding_failure_isolated (db : RagDB) (doc : StoredDoc)
    (text : List Char) (provider : List Char → Except String (List ℤ))
    (recs : List ChunkRec) (htext : text ≠ [])
    (hrecs : create_chunks chunkSize chunkOverlap text = some recs)
    (hwf : ∀ e ∈ db.embeddings, e.chunk_id < db.nextChunkId)
    (hfail : failedEmbedCount provider recs = 1) :
    (process_document db doc text provider).2.2 =
      Except.ok (recs.length, recs.length - 1) ∧
    (process_document db doc text provider).2.1 = DocStatus.processed ∧
    ∀ c ∈ chunksOf (process_document db doc text provider).1 doc.id,
      embedSucceeds provider c.content = true →
        ∃ e ∈ (process_document db doc text provider).1.embeddings,
          e.chunk_id = c.id := by
  have hins1emb : (insertChunks (delete_old_chunks_and_embeddings db doc.id)
      doc.id recs).1.embeddings =
      (delete_old_chunks_and_embeddings db doc.id).embeddings := rfl
  have hstored : (insertChunks (delete_old_chunks_and_embeddings db doc.id)
      doc.id recs).2 = mkStoredChunks doc.id db.nextChunkId recs := rfl
  have hwf1 : ∀ e ∈ (insertChunks (delete_old_chunks_and_embeddings db doc.id)
      doc.id recs).1.embeddings, e.chunk_id < db.nextChunkId := by
    rw [hins1emb]
    intro e he
    exact hwf e (List.mem_filter.mp he).1
  have hnone : ∀ c ∈ (insertChunks (delete_old_chunks_and_embeddings db doc.id)
      doc.id recs).2,
      ((insertChunks (delete_old_chunks_and_embeddings db doc.id)
        doc.id recs).1.embeddings.find?
          (fun e => e.chunk_id == c.id)).isNone := by
    intro c hc
    rw [hstored] at hc
    exact find?_embedding_fresh _ c.id db.nextChunkId hwf1
      (mkStoredChunks_id_bounds doc.id recs db.nextChunkId c hc).1
  have hcount : (process_document_chunks
      (insertChunks (delete_old_chunks_and_embeddings db doc.id) doc.id recs).1
      provider
      (insertChunks (delete_old_chunks_and_embeddings db doc.id) doc.id recs).2).2 =
      recs.length - 1 := by
    rw [process_document_chunks_snd, List.filter_eq_self.mpr hnone,
      filterMap_embed_length, hstored, mkStoredChunks_filter_embed_length]
    have hsplit := length_filter_split
      (fun r => embedSucceeds provider r.content) recs
    have hf : (recs.filter
        (fun r => !(embedSucceeds provider r.content))).length = 1 := hfail
    omega
  refine ⟨?_, ?_, ?_⟩
  · rw [process_document_eq_of_some db doc text provider recs htext hrecs]
    show Except.ok (recs.length, _) = _
    rw [hcount]
  · rw [process_document_eq_of_some db doc text provider recs htext hrecs]
  · intro c hc hok
    rw [chunksOf_after_process db doc text provider recs htext hrecs] at hc
    have hemb : (process_document db doc text provider).1.embeddings =
        (insertChunks (delete_old_chunks_and_embeddings db doc.id)
          doc.id recs).1.embeddings ++
        (((insertChunks (delete_old_chunks_and_embeddings db doc.id)
            doc.id recs).2.filter (fun c =>
          ((insertChunks (delete_old_chunks_and_embeddings db doc.id)
            doc.id recs).1.embeddings.find?
              (fun e => e.chunk_id == c.id)).isNone)).filterMap
          (fun c => match provider c.content with
            | .ok v => some (⟨c.id, v, embeddingModelId⟩ : StoredEmbedding)
            | .error _ => none)) := by
      rw [process_document_eq_of_some db doc text provider recs htext hrecs]
      exact process_document_chunks_embeddings _ provider _
    rw [hemb, List.filter_eq_self.mpr hnone, hstored]
    cases hp : provider c.content with
    | error e =>
      rw [embedSucceeds, hp] at hok
      cases hok
    | ok v =>
      refine ⟨⟨c.id, v, embeddingModelId⟩, ?_, rfl⟩
      apply List.mem_append_right
      apply List.mem_filterMap.mpr
      exact ⟨c, hc, by rw [hp]⟩

/-- Witness for C4: a single-chunk document whose only embedding request
fails; ingestion returns (1, 0) and the document is still `processed`. -/
theorem C4_partial_embedding_failure_isolated_witness :
    (process_document ⟨1, [⟨1, 1, "f.txt", DocStatus.uploaded⟩], [], []⟩
        ⟨1, 1, "f.txt", DocStatus.uploaded⟩ ("hi".toList)
        (fun _ => Except.error "quota")).2.2 = Except.ok (1, 0) ∧
    (process_document ⟨1, [⟨1, 1, "f.txt", DocStatus.uploaded⟩], [], []⟩
        ⟨1, 1, "f.txt", DocStatus.uploaded⟩ ("hi".toList)
        (fun _ => Except.error "quota")).2.1 = DocStatus.processed := by
  have h := C4_partial_embedding_failure_isolated
    ⟨1, [⟨1, 1, "f.txt", DocStatus.uploaded⟩], [], []⟩
    ⟨1, 1, "f.txt", DocStatus.uploaded⟩ ("hi".toList)
    (fun _ => Except.error "quota")
    [⟨0, "hi".toList, 0, 1000, 2⟩]
    (by decide) (by decide) (by decide) (by decide)
  exact ⟨h.1, h.2.1⟩

/-- C6: ingestion first deletes the document's previously stored chunks and
embeddings, so re-running ingestion on the same document with identical text
returns the same chunk and embedding counts as the first run; after the
second run the document's persisted chunks are exactly the second run's
`N` rows (indices `0 .. N-1`, no duplicates), and every embedding row still
references an existing chunk (no orphans). -/
theorem C6_reingestion_idempotent (db : RagDB) (doc : StoredDoc)
    (text : List Char) (provider : List Char → Except String (List ℤ))
    (recs : List ChunkRec) (htext : text ≠ [])
    (hrecs : create_chunks chunkSize chunkOverlap text = some recs)
    (hwfE : ∀ e ∈ db.embeddings, e.chunk_id < db.nextChunkId)
    (hri : ∀ e ∈ db.embeddings, ∃ c ∈ db.chunks, c.id = e.chunk_id) :
    (process_document (process_document db doc text provider).1
        doc text provider).2.2 =
      (process_document db doc text provider).2.2 ∧
    (chunksOf (process_document (process_document db doc text provider).1
        doc text provider).1 doc.id).length = recs.length ∧
    (chunksOf (process_document (process_document db doc text provider).1
        doc text provider).1 doc.id).map StoredChunk.chunk_index =
      List.range recs.length ∧
    ∀ e ∈ (process_document (process_document db doc text provider).1
        doc text provider).1.embeddings,
      ∃ c ∈ (process_document (process_document db doc text provider).1
        doc text provider).1.chunks, c.id = e.chunk_id := by
  have hembs1 := embeddings_after_process db doc text provider recs htext hrecs
  have hchunks1 := chunks_after_process db doc text provider recs htext hrecs
  have hnext1 := nextChunkId_after_process db doc text provider recs htext hrecs
  have hwfE1 : ∀ e ∈ (process_document db doc text provider).1.embeddings,
      e.chunk_id < (process_document db doc text provider).1.nextChunkId := by
    rw [hembs1, hnext1]
    intro e he
    rcases List.mem_append.mp he with h | h
    · have := hwfE e ((mem_delete_embeddings db doc.id e).mp h).1
      omega
    · rcases mem_embed_filterMap provider _ e h with ⟨c, hc, hce⟩
      have hcs := (List.mem_filter.mp hc).1
      have := (mkStoredChunks_id_bounds doc.id recs db.nextChunkId c hcs).2
      omega
  refine ⟨?_, ?_, ?_, ?_⟩
  · rw [process_document_result db doc text provider recs htext hrecs hwfE,
      process_document_result (process_document db doc text provider).1
        doc text provider recs htext hrecs hwfE1]
  · rw [chunksOf_after_process (process_document db doc text provider).1
      doc text provider recs htext hrecs, mkStoredChunks_length]
  · rw [chunksOf_after_process (process_document db doc text provider).1
      doc text provider recs htext hrecs, mkStoredChunks_map_index,
      create_chunks_loop_indices chunkSize chunkOverlap text
        (text.length + 1) 0 0 recs hrecs]
    exact (List.range_eq_range' recs.length).symm
  · intro e he
    rw [embeddings_after_process (process_document db doc text provider).1
      doc text provider recs htext hrecs] at he
    rw [chunks_after_process (process_document db doc text provider).1
      doc text provider recs htext hrecs]
    rcases List.mem_append.mp he with h | h
    · rcases (mem_delete_embeddings (process_document db doc text provider).1
        doc.id e).mp h with ⟨he1, hnotin⟩
      rw [hembs1] at he1
      rcases List.mem_append.mp he1 with h1 | h1
      · rcases (mem_delete_embeddings db doc.id e).mp h1 with ⟨heold, hnotold⟩
        rcases hri e heold with ⟨c, hcdb, hcid⟩
        have hcne : c.document_id ≠ doc.id := by
          intro hceq
          apply hnotold
          rw [← hcid]
          refine List.mem_map.mpr ⟨c, ?_, rfl⟩
          exact List.mem_filter.mpr ⟨hcdb, by simp [hceq]⟩
        refine ⟨c, ?_, hcid⟩
        apply List.mem_append_left
        rw [mem_delete_chunks]
        refine ⟨?_, hcne⟩
        rw [hchunks1]
        exact List.mem_append_left _
          ((mem_delete_chunks db doc.id c).mpr ⟨hcdb, hcne⟩)
      · exfalso
        apply hnotin
        rcases mem_embed_filterMap provider _ e h1 with ⟨c, hc, hce⟩
        have hcs : c ∈ mkStoredChunks doc.id db.nextChunkId recs :=
          (List.mem_filter.mp hc).1
        rw [hce]
        refine List.mem_map.mpr ⟨c, ?_, rfl⟩
        apply List.mem_filter.mpr
        refine ⟨?_, ?_⟩
        · rw [hchunks1]
          exact List.mem_append_right _ hcs
        · simp [mkStoredChunks_document_id doc.id recs db.nextChunkId c hcs]
    · rcases mem_embed_filterMap provider _ e h with ⟨c, hc, hce⟩
      exact ⟨c, List.mem_append_right _ (List.mem_filter.mp hc).1, hce.symm⟩

/-- Witness for C6 at a concrete input: ingesting "hi" twice into an empty
store; both runs return (1, 1), the final chunk list for the document has one
chunk with index 0, and there are no orphan embeddings. -/
theorem C6_reingestion_idempotent_witness :
    (process_document (process_document
        ⟨1, [⟨1, 1, "f.txt", DocStatus.uploaded⟩], [], []⟩
        ⟨1, 1, "f.txt", DocStatus.uploaded⟩ ("hi".toList)
        (fun _ => Except.ok [1])).1
      ⟨1, 1, "f.txt", DocStatus.uploaded⟩ ("hi".toList)
      (fun _ => Except.ok [1])).2.2 =
      (process_document ⟨1, [⟨1, 1, "f.txt", DocStatus.uploaded⟩], [], []⟩
        ⟨1, 1, "f.txt", DocStatus.uploaded⟩ ("hi".toList)
        (fun _ => Except.ok [1])).2.2 ∧
    (chunksOf (process_document (process_document
        ⟨1, [⟨1, 1, "f.txt", DocStatus.uploaded⟩], [], []⟩
        ⟨1, 1, "f.txt", DocStatus.uploaded⟩ ("hi".toList)
        (fun _ => Except.ok [1])).1
      ⟨1, 1, "f.txt", DocStatus.uploaded⟩ ("hi".toList)
      (fun _ => Except.ok [1])).1 1).length = 1 ∧
    (chunksOf (process_document (process_document
        ⟨1, [⟨1, 1, "f.txt", DocStatus.uploaded⟩], [], []⟩
        ⟨1, 1, "f.txt", DocStatus.uploaded⟩ ("hi".toList)
        (fun _ => Except.ok [1])).1
      ⟨1, 1, "f.txt", DocStatus.uploaded⟩ ("hi".toList)
      (fun _ => Except.ok [1])).1 1).map StoredChunk.chunk_index =
      List.range 1 ∧
    ∀ e ∈ (process_document (process_document
        ⟨1, [⟨1, 1, "f.txt", DocStatus.uploaded⟩], [], []⟩
        ⟨1, 1, "f.txt", DocStatus.uploaded⟩ ("hi".toList)
        (fun _ => Except.ok [1])).1
      ⟨1, 1, "f.txt", DocStatus.uploaded⟩ ("hi".toList)
      (fun _ => Except.ok [1])).1.embeddings,
      ∃ c ∈ (process_document (process_document
        ⟨1, [⟨1, 1, "f.txt", DocStatus.uploaded⟩], [], []⟩
        ⟨1, 1, "f.txt", DocStatus.uploaded⟩ ("hi".toList)
        (fun _ => Except.ok [1])).1
      ⟨1, 1, "f.txt", DocStatus.uploaded⟩ ("hi".toList)
      (fun _ => Except.ok [1])).1.chunks, c.id = e.chunk_id :=
  C6_reingestion_idempotent
    ⟨1, [⟨1, 1, "f.txt", DocStatus.uploaded⟩], [], []⟩
    ⟨1, 1, "f.txt", DocStatus.uploaded⟩ ("hi".toList)
    (fun _ => Except.ok [1]) [⟨0, "hi".toList, 0, 1000, 2⟩]
    (by decide) (by decide) (by decide) (by decide)

/-- C5 counterexample: for a document whose extracted text is empty, the
pipeline does not return the pair (0, 0) — it propagates the "No text
extracted" exception instead. -/
theorem C5_empty_text_counterexample :
    (process_document ⟨1, [⟨1, 1, "f.txt", DocStatus.uploaded⟩], [], []⟩
        ⟨1, 1, "f.txt", DocStatus.uploaded⟩ [] (fun _ => Except.ok [1])).2.2 ≠
      Except.ok (0, 0) := by
  have h : (process_document ⟨1, [⟨1, 1, "f.txt", DocStatus.uploaded⟩], [], []⟩
      ⟨1, 1, "f.txt", DocStatus.uploaded⟩ [] (fun _ => Except.ok [1])).2.2 =
      Except.error "No text extracted" := rfl
  rw [h]
  intro hco
  cases hco

/-- C5 (amended): for every document whose extracted text is empty, ingestion
sets the document status to `error`, persists no chunks and no embeddings
(the store's chunk and embedding rows are exactly what they were before the
run), and signals the extraction failure by raising — propagating the
`"No text extracted"` error to the caller instead of returning (0, 0). -/
theorem C5_empty_text_fails_document (db : RagDB) (doc : StoredDoc)
    (provider : List Char → Except String (List ℤ)) :
    (process_document db doc [] provider).1.chunks = db.chunks ∧
    (process_document db doc [] provider).1.embeddings = db.embeddings ∧
    (process_document db doc [] provider).2.1 = DocStatus.error ∧
    (process_document db doc [] provider).2.2 =
      Except.error "No text extracted" := by
  refine ⟨?_, ?_, rfl, rfl⟩ <;> rfl

end Zeep
